import Mathlib

/-!
Verification development for the CSS Spy Defender content script
(src/extension/content.js).  The JavaScript string type is modelled as a
list of Unicode code points (`List Nat`), which faithfully represents JS
strings including lone surrogates produced by String.fromCodePoint.
Regex scans are modelled by hand-written matchers that follow the exact
leftmost, greedy, backtracking semantics of the concrete regexes in the
source.  Asynchronous continuations (fetch .then callbacks) are
linearized depth-first; the shared seen-sets are checked and marked
synchronously in the source, so the verified invariants are
interleaving-independent.
-/

/-- Convert a Lean string literal to the code-point list model of a JS string. -/
def str (s : String) : List Nat := s.data.map Char.toNat

/-- JS regex `\s` character class (ECMAScript WhiteSpace and LineTerminator). -/
def isJsWs (c : Nat) : Bool :=
  c = 9 || c = 10 || c = 11 || c = 12 || c = 13 || c = 32 || c = 160 ||
  c = 5760 || (8192 ≤ c && c ≤ 8202) || c = 8232 || c = 8233 ||
  c = 8239 || c = 8287 || c = 12288 || c = 65279

/-- Hexadecimal digit class `[0-9a-fA-F]`. -/
def isHexDig (c : Nat) : Bool :=
  (48 ≤ c && c ≤ 57) || (65 ≤ c && c ≤ 70) || (97 ≤ c && c ≤ 102)

/-- ASCII decimal digit class `\d`. -/
def isDigit (c : Nat) : Bool := 48 ≤ c && c ≤ 57

/-- Value of a single hex digit. -/
def hexDigVal (c : Nat) : Nat :=
  if c ≤ 57 then c - 48 else if c ≤ 70 then c - 55 else c - 87

/-- Value of a hex digit string (big-endian). -/
def hexVal (l : List Nat) : Nat := l.foldl (fun a c => a * 16 + hexDigVal c) 0

/-- ASCII lower-casing, the canonicalization used by the non-unicode `/i` flag. -/
def toLowerA (c : Nat) : Nat := if 65 ≤ c && c ≤ 90 then c + 32 else c

/-- Model of `Number.parseInt(hex, 16)` followed by the `Number.isFinite`
check: the result is `none` exactly when the digit string yields NaN,
i.e. when it contains no leading hex digit. -/
def parseIntHex (hx : List Nat) : Option Nat :=
  if hx ≠ [] ∧ hx.all isHexDig then some (hexVal hx) else none

/-- Number of characters the optional trailing `\s?` of the escape regex
consumes at the head of `rest` (0 or 1). -/
def wsHead (rest : List Nat) : Nat :=
  match rest with
  | w :: _ => if isJsWs w then 1 else 0
  | [] => 0

/-- Fuelled worker for `decodeCssEscapes`.  One step of the recursion
handles one position of the JS `String.replace(/\\([0-9a-fA-F]{1,6})\s?/g, ...)`
scan from content.js lines 40-55: a backslash followed by a maximal run of
1 to 6 hex digits and at most one whitespace character is replaced by the
code point when `String.fromCodePoint` accepts it (≤ 0x10FFFF), the whole
match is kept verbatim otherwise, and every other character is copied. -/
def decodeF : Nat → List Nat → List Nat
  | 0, s => s
  | _ + 1, [] => []
  | fuel + 1, c :: rest =>
    if c = 92 then
      let hx := (rest.take 6).takeWhile isHexDig
      if hx.length = 0 then c :: decodeF fuel rest
      else
        let r1 := rest.drop hx.length
        let wsn := wsHead r1
        let r2 := r1.drop wsn
        match parseIntHex hx with
        | none => (c :: hx) ++ r1.take wsn ++ decodeF fuel r2
        | some code =>
          if code ≤ 1114111 then code :: decodeF fuel r2
          else (c :: hx) ++ r1.take wsn ++ decodeF fuel r2
    else c :: decodeF fuel rest

/-- `decodeCssEscapes` from content.js (lines 40-55).  The fuel
`s.length` is an upper bound on the number of scan steps, each of which
consumes at least one character, so the fuel never runs out. -/
def decodeCssEscapes (s : List Nat) : List Nat := decodeF s.length s

/-- Instrumented twin of `decodeF`: additionally reports whether the
`!Number.isFinite(code)` guard branch (content.js line 46) was ever taken. -/
def decodeInstrF : Nat → List Nat → List Nat × Bool
  | 0, s => (s, false)
  | _ + 1, [] => ([], false)
  | fuel + 1, c :: rest =>
    if c = 92 then
      let hx := (rest.take 6).takeWhile isHexDig
      if hx.length = 0 then
        let p := decodeInstrF fuel rest
        (c :: p.1, p.2)
      else
        let r1 := rest.drop hx.length
        let wsn := wsHead r1
        let r2 := r1.drop wsn
        match parseIntHex hx with
        | none =>
          let p := decodeInstrF fuel r2
          ((c :: hx) ++ r1.take wsn ++ p.1, true)
        | some code =>
          if code ≤ 1114111 then
            let p := decodeInstrF fuel r2
            (code :: p.1, p.2)
          else
            let p := decodeInstrF fuel r2
            ((c :: hx) ++ r1.take wsn ++ p.1, p.2)
    else
      let p := decodeInstrF fuel rest
      (c :: p.1, p.2)

/-- Instrumented `decodeCssEscapes`. -/
def decodeCssEscapesInstr (s : List Nat) : List Nat × Bool :=
  decodeInstrF s.length s

/-- A string contains a CSS hex-escape sequence: a backslash immediately
followed by a hex digit. -/
def hasEscape : List Nat → Bool
  | [] => false
  | [_] => false
  | c :: d :: r => (c = 92 && isHexDig d) || hasEscape (d :: r)

/-- Drop the characters matched by a maximal-munch `\s*`. -/
def dropWs (s : List Nat) : List Nat := s.dropWhile isJsWs

/-- Model of `String.prototype.trim` (removes ECMAScript whitespace and
line terminators from both ends), used on import URL candidates. -/
def trim (s : List Nat) : List Nat :=
  ((s.dropWhile isJsWs).reverse.dropWhile isJsWs).reverse

/-- Match a literal keyword case-insensitively (the keyword is given in
lower case), as the `/i` regex flag canonicalizes ASCII letters.
Returns the remainder on success. -/
def matchKw : List Nat → List Nat → Option (List Nat)
  | [], s => some s
  | _ :: _, [] => none
  | k :: ks, c :: s => if toLowerA c = k then matchKw ks s else none

/-- Character class `[^'")\s]` of the url/image function-argument body. -/
def isUrlBodyChar (c : Nat) : Bool :=
  !(c = 39 || c = 34 || c = 41 || isJsWs c)

/-- Match `(['"]?)([^'")\s]+)\1\s*\)` at the head of `s` (the part of the
url/image pattern following the opening parenthesis and `\s*`).  When the
head is a quote the empty-quote alternative cannot succeed, because both
quote characters are excluded from the body class; this makes the
backtracking of the regex deterministic.  Returns (captured body, rest). -/
def matchQuotedOrBare (s : List Nat) : Option (List Nat × List Nat) :=
  match s with
  | [] => none
  | c :: r =>
    if c = 39 || c = 34 then
      let body := r.takeWhile isUrlBodyChar
      let r2 := r.dropWhile isUrlBodyChar
      if body.length = 0 then none
      else
        match r2 with
        | c2 :: r3 =>
          if c2 = c then
            match dropWs r3 with
            | 41 :: r5 => some (body, r5)
            | _ => none
          else none
        | [] => none
    else
      let body := s.takeWhile isUrlBodyChar
      let r2 := s.dropWhile isUrlBodyChar
      if body.length = 0 then none
      else
        match dropWs r2 with
        | 41 :: r4 => some (body, r4)
        | _ => none

/-- Match `name\s*\(\s*(['"]?)([^'")\s]+)\1\s*\)` at the head of `s`
(patterns of content.js lines 271-274 with name = url or image, and the
url form inside the @import regex).  Returns (captured URL text, rest). -/
def matchUrlFuncAt (name : List Nat) (s : List Nat) : Option (List Nat × List Nat) :=
  match matchKw name s with
  | none => none
  | some r1 =>
    match dropWs r1 with
    | 40 :: r3 => matchQuotedOrBare (dropWs r3)
    | _ => none

/-- Match `image-set\s*\(\s*([^)]+)\)` at the head of `s` (content.js line
292).  The greedy `\s*` and `([^)]+)` jointly consume everything up to the
first closing parenthesis; when that span is entirely whitespace the regex
backtracks so that the capture keeps its last character. -/
def matchImageSetAt (s : List Nat) : Option (List Nat × List Nat) :=
  match matchKw (str "image-set") s with
  | none => none
  | some r1 =>
    match dropWs r1 with
    | 40 :: r3 =>
      let t := r3.takeWhile (fun c => c ≠ 41)
      let r5 := r3.dropWhile (fun c => c ≠ 41)
      if t.length = 0 then none
      else
        match r5 with
        | 41 :: r6 =>
          let cap := t.dropWhile isJsWs
          if cap.length = 0 then some (t.drop (t.length - 1), r6)
          else some (cap, r6)
        | _ => none
    | _ => none

/-- Match `(['"])([^'"]+)\1\s+\d+(?:\.\d+)?(?:x|dppx)` at the head of `s`
(the bare-string image-set entry regex, content.js line 303).  Returns
(captured URL text, rest). -/
def matchDirectAt (s : List Nat) : Option (List Nat × List Nat) :=
  match s with
  | [] => none
  | q :: r =>
    if q = 39 || q = 34 then
      let body := r.takeWhile (fun c => !(c = 39 || c = 34))
      let r2 := r.dropWhile (fun c => !(c = 39 || c = 34))
      if body.length = 0 then none
      else
        match r2 with
        | q2 :: r3 =>
          if q2 = q then
            let ws := r3.takeWhile isJsWs
            let r4 := r3.dropWhile isJsWs
            if ws.length = 0 then none
            else
              let digits := r4.takeWhile isDigit
              let r5 := r4.dropWhile isDigit
              if digits.length = 0 then none
              else
                let r6 :=
                  match r5 with
                  | 46 :: r5a =>
                    let fd := r5a.takeWhile isDigit
                    if fd.length = 0 then r5 else r5a.dropWhile isDigit
                  | _ => r5
                match r6 with
                | c :: r7 =>
                  if toLowerA c = 120 then some (body, r7)
                  else
                    match matchKw (str "dppx") r6 with
                    | some r8 => some (body, r8)
                    | none => none
                | [] => none
          else none
        | [] => none
    else none

/-- Match
`@import\s+(?:url\s*\(\s*(['"]?)([^'")\s]+)\1\s*\)|(['"])([^'"]+)\3)[^;]*;`
at the head of `s` (content.js line 231) and return the URL candidate
`match[2] || match[4]` together with the rest.  The url alternative and
the bare-string alternative begin with distinct characters, so the
alternation is deterministic; the trailing `[^;]*;` skips any media-query
or layer tokens up to the terminating semicolon. -/
def matchImportAt (s : List Nat) : Option (List Nat × List Nat) :=
  match matchKw (str "@import") s with
  | none => none
  | some r1 =>
    let ws := r1.takeWhile isJsWs
    let r2 := r1.dropWhile isJsWs
    if ws.length = 0 then none
    else
      let group : Option (List Nat × List Nat) :=
        match matchUrlFuncAt (str "url") r2 with
        | some p => some p
        | none =>
          match r2 with
          | [] => none
          | q :: r3 =>
            if q = 39 || q = 34 then
              let body := r3.takeWhile (fun c => !(c = 39 || c = 34))
              let r4 := r3.dropWhile (fun c => !(c = 39 || c = 34))
              if body.length = 0 then none
              else
                match r4 with
                | q2 :: r5 => if q2 = q then some (body, r5) else none
                | [] => none
            else none
      match group with
      | none => none
      | some (u, r3) =>
        match r3.dropWhile (fun c => c ≠ 59) with
        | 59 :: r5 => some (u, r5)
        | _ => none

/-- Fuelled scanner: the `while ((match = re.exec(text)) !== null)` loop of a
global regex.  At each position the matcher is tried; on success the
capture is collected and scanning resumes after the match, otherwise the
scan advances one character.  Every successful match of the patterns in
content.js consumes at least one character, so fuel `s.length` suffices. -/
def scanAllF (m : List Nat → Option (List Nat × List Nat)) :
    Nat → List Nat → List (List Nat)
  | 0, _ => []
  | _ + 1, [] => []
  | fuel + 1, c :: rest =>
    match m (c :: rest) with
    | some (cap, after) =>
      let consumed := (c :: rest).length - after.length
      cap :: scanAllF m fuel (List.drop (max consumed 1) (c :: rest))
    | none => scanAllF m fuel rest

/-- Run a global-regex scan over a whole string. -/
def scanAll (m : List Nat → Option (List Nat × List Nat)) (s : List Nat) :
    List (List Nat) :=
  scanAllF m s.length s

/-- All captures of `name\s*\(\s*(['"]?)([^'")\s]+)\1\s*\)` over `s`. -/
def scanPattern (name : List Nat) (s : List Nat) : List (List Nat) :=
  scanAll (matchUrlFuncAt name) s

/-- All inner texts of `image-set\s*\(\s*([^)]+)\)` over `s`. -/
def scanImageSet (s : List Nat) : List (List Nat) := scanAll matchImageSetAt s

/-- All captures of the bare image-set entry regex over `s`. -/
def scanDirect (s : List Nat) : List (List Nat) := scanAll matchDirectAt s

/-- All URL candidates of the @import regex over `s`. -/
def scanImports (s : List Nat) : List (List Nat) := scanAll matchImportAt s

/-- Maximum recursion depth for @import processing (content.js line 17). -/
def IMPORT_MAX_DEPTH : Nat := 3

/-- Observable document state accumulated by the preloading engine:
the two module-level seen-sets of content.js (lines 23-24), the log of
probe img elements created by fetchURLFromPage, and the log of stylesheet
texts requested through fetchCSSContent. -/
structure St where
  preloadedUrls : List (List Nat)
  parsedCssUrls : List (List Nat)
  probes : List (List Nat)
  fetches : List (List Nat)
deriving DecidableEq, Repr

/-- The empty state at document load. -/
def initSt : St := ⟨[], [], [], []⟩

/-- External collaborators of the engine: the URL constructor
(`new URL(candidate, base).href`, `none` when the constructor throws), the
network content visible through fetchCSSContent (`none` on any fetch
failure), and `document.baseURI`. -/
structure Env where
  resolve : List Nat → List Nat → Option (List Nat)
  fetchText : List Nat → Option (List Nat)
  docBase : List Nat

/-- The early-return guard of fetchURLFromPage (content.js line 198):
true when the url is falsy or starts with data:, # or blob:. -/
def guardFetch (url : List Nat) : Bool :=
  url.isEmpty || (str "data:").isPrefixOf url || (str "#").isPrefixOf url ||
    (str "blob:").isPrefixOf url

/-- `fetchURLFromPage` (content.js lines 197-220): drop guarded inputs,
resolve against document.baseURI, dedup against preloadedUrls, and
otherwise record the url as preloaded and create a hidden img probe. -/
def fetchURLFromPage (env : Env) (url : List Nat) (st : St) : St :=
  if guardFetch url then st
  else
    match env.resolve url env.docBase with
    | none => st
    | some abs =>
      if abs ∈ st.preloadedUrls then st
      else { st with preloadedUrls := abs :: st.preloadedUrls,
                     probes := st.probes ++ [abs] }

/-- Processing of one url()/image() candidate in parseAndPreload
(content.js lines 278-289): skip empty or data: candidates, resolve
against the context base url, silently drop resolution failures, and
hand the absolute href to fetchURLFromPage. -/
def processResource (env : Env) (b : List Nat) (st : St) (u : List Nat) : St :=
  if !u.isEmpty && !(str "data:").isPrefixOf u then
    match env.resolve u b with
    | some href => fetchURLFromPage env href st
    | none => st
  else st

/-- Processing of one candidate inside image-set() (content.js lines
296-309): resolve and hand over, with no data: pre-check. -/
def processInner (env : Env) (b : List Nat) (st : St) (u : List Nat) : St :=
  match env.resolve u b with
  | some href => fetchURLFromPage env href st
  | none => st

/-- The three resource-pattern passes of parseAndPreload (content.js lines
270-310): the url() and image() scans over the whole normalized text, then
the image-set() scan whose inner text is re-scanned for nested url() and
bare-string entries. -/
def resourcePass (env : Env) (ncss : List Nat) (b : List Nat) (st : St) : St :=
  let st1 := (scanPattern (str "url") ncss).foldl (processResource env b) st
  let st2 := (scanPattern (str "image") ncss).foldl (processResource env b) st1
  (scanImageSet ncss).foldl
    (fun st inner =>
      let sa := (scanPattern (str "url") inner).foldl (processInner env b) st
      (scanDirect inner).foldl (processInner env b) sa)
    st2

/-- Insert a stylesheet URL into the parsedCssUrls seen-set. -/
def addParsed (abs : List Nat) (st : St) : St :=
  { st with parsedCssUrls := abs :: st.parsedCssUrls }

/-- Record that the text of a stylesheet URL was requested. -/
def logFetch (abs : List Nat) (st : St) : St :=
  { st with fetches := st.fetches ++ [abs] }

/-- The body of the @import loop of handleImports (content.js lines
234-256) for one candidate, parameterized by the recursive call used for
the fetched text: skip falsy candidates, resolve the trimmed candidate,
silently drop resolution failures, skip candidates already in
parsedCssUrls, and otherwise mark seen, probe the import URL itself,
request its text and recurse on success. -/
def stepImport (env : Env) (recur : List Nat → List Nat → St → St)
    (b : List Nat) (st : St) (cand : List Nat) : St :=
  if cand.isEmpty then st
  else
    match env.resolve (trim cand) b with
    | none => st
    | some abs =>
      if abs ∈ st.parsedCssUrls then st
      else
        let stC := logFetch abs (fetchURLFromPage env abs (addParsed abs st))
        match env.fetchText abs with
        | some icss => recur icss abs stC
        | none => stC

/-- Fuelled engine combining parseAndPreload (content.js lines 262-316)
and handleImports (lines 225-257).  One unit of fuel corresponds to a
single recursion level; the depth guard `depth ≥ IMPORT_MAX_DEPTH` stops
the recursion exactly as in the source, and the fuel of the wrappers
below always dominates the remaining levels, so the fuel-0 case is never
reached on a path the source executes. -/
def engineF (env : Env) : Nat → List Nat → Nat → List Nat → St → St
  | 0, _, _, _, st => st
  | fuel + 1, css, depth, baseUrl, st =>
    if css.isEmpty then st
    else
      let ncss := decodeCssEscapes css
      let b := if baseUrl.isEmpty then env.docBase else baseUrl
      let st3 := resourcePass env ncss b st
      if IMPORT_MAX_DEPTH ≤ depth then st3
      else
        (scanImports (decodeCssEscapes ncss)).foldl
          (stepImport env (fun icss abs st' => engineF env fuel icss (depth + 1) abs st') b)
          st3

/-- Fuel that always suffices for an entry at the given depth: the number
of remaining levels below the depth bound, plus one for the entry itself. -/
def fuelFor (depth : Nat) : Nat := IMPORT_MAX_DEPTH + 1 - min depth IMPORT_MAX_DEPTH

/-- `parseAndPreload` (content.js lines 262-316). -/
def parseAndPreload (env : Env) (css : List Nat) (depth : Nat)
    (baseUrl : List Nat) (st : St) : St :=
  engineF env (fuelFor depth) css depth baseUrl st

/-- `handleImports` (content.js lines 225-257): stop at the depth bound,
decode the text, and run the @import loop, recursing into
parseAndPreload with depth + 1 and the import's own absolute URL. -/
def handleImports (env : Env) (css : List Nat) (depth : Nat)
    (baseUrl : List Nat) (st : St) : St :=
  if IMPORT_MAX_DEPTH ≤ depth then st
  else
    let b := if baseUrl.isEmpty then env.docBase else baseUrl
    (scanImports (decodeCssEscapes css)).foldl
      (stepImport env (fun icss abs st' => parseAndPreload env icss (depth + 1) abs st') b)
      st

/-- The entry points that feed the engine during the document lifetime
(runPreloading, content.js lines 321-380): a direct probe request, a
parse of style text, and a stylesheet link element (which dedups on
parsedCssUrls before fetching and parsing at depth 0 with the link href
as base). -/
inductive Op where
  | probe (url : List Nat)
  | scan (css : List Nat) (depth : Nat) (baseUrl : List Nat)
  | link (href : List Nat)
deriving DecidableEq, Repr

/-- Execute one entry-point event. -/
def runOp (env : Env) (st : St) : Op → St
  | .probe url => fetchURLFromPage env url st
  | .scan css d b => parseAndPreload env css d b st
  | .link href =>
    if href.isEmpty then st
    else if href ∈ st.parsedCssUrls then st
    else
      let st2 := logFetch href (addParsed href st)
      match env.fetchText href with
      | some css => parseAndPreload env css 0 href st2
      | none => st2

/-- Execute a sequence of entry-point events. -/
def runOps (env : Env) (ops : List Op) (st : St) : St :=
  ops.foldl (runOp env) st

/-- Outcome of the message round-trip to the background service worker,
as observed by the callback in fetchCSSViaBackground (content.js lines
64-82): a chrome.runtime.lastError, a missing/falsy response object, or a
response `{ success, css }` (css absent models an undefined field). -/
inductive BgOutcome where
  | lastErr
  | noResp
  | resp (success : Bool) (css : Option (List Nat))
deriving DecidableEq, Repr

/-- External world of fetchCSSContent: the URL parser
(`new URL(url).origin`, `none` when the constructor throws),
`location.origin`, the in-page `fetch` (an exception, or a pair of
`response.ok` and the body text), and the service-worker reply. -/
structure Net where
  parseOrigin : List Nat → Option (List Nat)
  locOrigin : List Nat
  directFetch : List Nat → Except Unit (Bool × List Nat)
  bg : List Nat → BgOutcome

/-- `fetchCSSViaBackground` (content.js lines 64-82): resolve null on
chrome.runtime.lastError, resolve response.css when the response is
truthy and successful, resolve null otherwise. -/
def fetchCSSViaBackground (net : Net) (url : List Nat) : Option (List Nat) :=
  match net.bg url with
  | .lastErr => none
  | .noResp => none
  | .resp true css => css
  | .resp false _ => none

/-- `fetchCSSContent` (content.js lines 87-102): classify the URL by
origin, fetch cross-origin content through the service worker and
same-origin content directly, return null on a non-ok status, and catch
every exception (URL construction, network, body decoding) as null. -/
def fetchCSSContent (net : Net) (url : List Nat) : Option (List Nat) :=
  match net.parseOrigin url with
  | none => none
  | some origin =>
    if origin ≠ net.locOrigin then fetchCSSViaBackground net url
    else
      match net.directFetch url with
      | .error _ => none
      | .ok (ok, body) => if ok then some body else none

/-- A simple URL-constructor model for concrete runs: absolute https
URLs resolve to themselves, a fragment resolves against the base by
concatenation, anything else fails. -/
def testResolve (u : List Nat) (b : List Nat) : Option (List Nat) :=
  if (str "https://").isPrefixOf u then some u
  else if (str "#").isPrefixOf u then some (b ++ u)
  else none

/-- Concrete environment with an empty network. -/
def testEnv : Env :=
  { resolve := testResolve
    fetchText := fun _ => none
    docBase := str "https://base.example/" }

/-- The two-branch fingerprinting CSS of the specification: two mutually
exclusive prefers-color-scheme rules, the first with a hex-escaped
u\72l(...) reference. -/
def cssTwoBranch : List Nat :=
  str "@media (prefers-color-scheme: light)\x7b.probe\x7bbackground-image:u\\72l(\"https://x.test/light\")\x7d\x7d@media (prefers-color-scheme: dark)\x7b.probe\x7bbackground-image:url(\"https://x.test/dark\")\x7d\x7d"

/-- The light-branch URL of the two-branch CSS. -/
def lightUrl : List Nat := str "https://x.test/light"

/-- The dark-branch URL of the two-branch CSS. -/
def darkUrl : List Nat := str "https://x.test/dark"

/-- CSS whose only URL candidate is a bare fragment. -/
def cssFragOnly : List Nat := str ".icon\x7bbackground:url(#mark)\x7d"

/-- The i-th URL of the synthetic import chain. -/
def chainUrl (i : Nat) : List Nat :=
  str "https://chain.test/" ++ [48 + i]

/-- A stylesheet whose whole content is one bare-string @import of the
i-th chain URL. -/
def chainCss (i : Nat) : List Nat :=
  str "@import \"" ++ chainUrl i ++ str "\";"

/-- Network of the depth-10 import chain: the text of chain URL i imports
chain URL i+1, for i = 1..9; chain URL 10 is an empty stylesheet. -/
def chainEnv : Env :=
  { resolve := testResolve
    fetchText := fun u =>
      (List.range 9).foldr
        (fun i acc => if u = chainUrl (i + 1) then some (chainCss (i + 2)) else acc)
        (if u = chainUrl 10 then some [] else none)
    docBase := str "https://chain.test/" }

/-- Stylesheet URL A of the cyclic import pair. -/
def cycUrlA : List Nat := str "https://cyc.test/a.css"

/-- Stylesheet URL B of the cyclic import pair. -/
def cycUrlB : List Nat := str "https://cyc.test/b.css"

/-- Network of the two-element import cycle: A imports B and B imports A. -/
def cycleEnv : Env :=
  { resolve := testResolve
    fetchText := fun u =>
      if u = cycUrlA then some (str "@import \"https://cyc.test/b.css\";")
      else if u = cycUrlB then some (str "@import \"https://cyc.test/a.css\";")
      else none
    docBase := str "https://cyc.test/" }

/-- Concrete fetch world for witnesses: one same-origin stylesheet served
directly, one cross-origin stylesheet served by the service worker. -/
def testNet : Net :=
  { parseOrigin := fun u =>
      if u = str "https://same.example/a.css" then some (str "https://same.example")
      else if u = str "https://other.example/b.css" then some (str "https://other.example")
      else none
    locOrigin := str "https://same.example"
    directFetch := fun u =>
      if u = str "https://same.example/a.css" then .ok (true, str "body\x7b\x7d")
      else .error ()
    bg := fun u =>
      if u = str "https://other.example/b.css" then .resp true (some (str "p\x7b\x7d"))
      else .lastErr }

/-- Probe invariant: no two probe elements were ever created for the same
absolute URL, and every probed URL is recorded in preloadedUrls. -/
def ProbeInv (st : St) : Prop :=
  st.probes.Nodup ∧ ∀ u ∈ st.probes, u ∈ st.preloadedUrls

/-- Relation between a state and any state the engine can evolve it into:
the seen-sets and the probe log only grow, every fetch-log entry added
was not yet in parsedCssUrls when the evolution started, every newly
preloaded URL got a probe, and the probe invariant is preserved. -/
def Good (st st' : St) : Prop :=
  (∀ u ∈ st.preloadedUrls, u ∈ st'.preloadedUrls) ∧
  (∀ u ∈ st.parsedCssUrls, u ∈ st'.parsedCssUrls) ∧
  (∀ u ∈ st.probes, u ∈ st'.probes) ∧
  (∃ d, st'.fetches = st.fetches ++ d ∧ ∀ u ∈ d, u ∉ st.parsedCssUrls) ∧
  (∀ u ∈ st'.preloadedUrls, u ∈ st.preloadedUrls ∨ u ∈ st'.probes) ∧
  (ProbeInv st → ProbeInv st')

lemma good_refl (st : St) : Good st st := by
  refine ⟨fun u h => h, fun u h => h, fun u h => h, ⟨[], by simp, by simp⟩,
    fun u h => Or.inl h, fun h => h⟩

lemma good_trans {s t u : St} (h1 : Good s t) (h2 : Good t u) : Good s u := by
  obtain ⟨a1, a2, a3, ⟨d1, hd1, hdp1⟩, a5, a6⟩ := h1
  obtain ⟨b1, b2, b3, ⟨d2, hd2, hdp2⟩, b5, b6⟩ := h2
  refine ⟨fun x hx => b1 x (a1 x hx), fun x hx => b2 x (a2 x hx),
    fun x hx => b3 x (a3 x hx), ⟨d1 ++ d2, by rw [hd2, hd1, List.append_assoc], ?_⟩,
    ?_, fun h => b6 (a6 h)⟩
  · intro x hx
    rcases List.mem_append.mp hx with hx1 | hx2
    · exact hdp1 x hx1
    · intro hc
      exact hdp2 x hx2 (a2 x hc)
  · intro x hx
    rcases b5 x hx with hx1 | hx2
    · rcases a5 x hx1 with hy1 | hy2
      · exact Or.inl hy1
      · exact Or.inr (b3 x hy2)
    · exact Or.inr hx2

lemma good_fetchURLFromPage (env : Env) (url : List Nat) (st : St) :
    Good st (fetchURLFromPage env url st) := by
  unfold fetchURLFromPage
  split
  · exact good_refl st
  · split
    · exact good_refl st
    · rename_i abs _
      split
      · exact good_refl st
      · rename_i habs
        refine ⟨fun x hx => List.mem_cons_of_mem _ hx, fun x hx => hx,
          fun x hx => List.mem_append_left _ hx, ⟨[], by simp, by simp⟩, ?_, ?_⟩
        · intro x hx
          rcases List.mem_cons.mp hx with hx1 | hx2
          · exact Or.inr (by simp [hx1])
          · exact Or.inl hx2
        · rintro ⟨hnd, hsub⟩
          constructor
          · rw [List.nodup_append]
            exact ⟨hnd, List.nodup_singleton _,
              fun x hx hx2 => habs (by simp at hx2; exact hx2 ▸ hsub x hx)⟩
          · intro x hx
            rcases List.mem_append.mp hx with hx1 | hx2
            · exact List.mem_cons_of_mem _ (hsub x hx1)
            · simp at hx2
              simp [hx2]

lemma good_processResource (env : Env) (b : List Nat) (st : St) (u : List Nat) :
    Good st (processResource env b st u) := by
  unfold processResource
  split
  · split
    · exact good_fetchURLFromPage env _ st
    · exact good_refl st
  · exact good_refl st

lemma good_processInner (env : Env) (b : List Nat) (st : St) (u : List Nat) :
    Good st (processInner env b st u) := by
  unfold processInner
  split
  · exact good_fetchURLFromPage env _ st
  · exact good_refl st

lemma good_foldl {α : Type} (f : St → α → St)
    (hf : ∀ st a, Good st (f st a)) :
    ∀ (l : List α) (st : St), Good st (List.foldl f st l) := by
  intro l
  induction l with
  | nil => intro st; exact good_refl st
  | cons a t ih => intro st; exact good_trans (hf st a) (ih (f st a))

lemma good_resourcePass (env : Env) (ncss b : List Nat) (st : St) :
    Good st (resourcePass env ncss b st) := by
  unfold resourcePass
  refine good_trans (good_foldl _ (good_processResource env b) _ st)
    (good_trans (good_foldl _ (good_processResource env b) _ _)
      (good_foldl _ ?_ _ _))
  intro st' inner
  exact good_trans (good_foldl _ (good_processInner env b) _ st')
    (good_foldl _ (good_processInner env b) _ _)

lemma good_logFetch_of {st st' : St} {abs : List Nat} (h : Good st st')
    (habs : abs ∉ st.parsedCssUrls) : Good st (logFetch abs st') := by
  obtain ⟨a1, a2, a3, ⟨d, hd, hdp⟩, a5, a6⟩ := h
  refine ⟨a1, a2, a3, ⟨d ++ [abs], ?_, ?_⟩, a5, a6⟩
  · simp only [logFetch, hd, List.append_assoc]
  · intro x hx
    rcases List.mem_append.mp hx with hx1 | hx2
    · exact hdp x hx1
    · simp at hx2
      rw [hx2]
      exact habs

lemma good_addParsed (abs : List Nat) (st : St) : Good st (addParsed abs st) := by
  refine ⟨fun x hx => hx, fun x hx => List.mem_cons_of_mem _ hx, fun x hx => hx,
    ⟨[], by simp [addParsed], by simp⟩, fun x hx => Or.inl hx, fun h => h⟩

lemma good_stepImport (env : Env) (recur : List Nat → List Nat → St → St)
    (hr : ∀ icss abs st', Good st' (recur icss abs st'))
    (b : List Nat) (st : St) (cand : List Nat) :
    Good st (stepImport env recur b st cand) := by
  unfold stepImport
  split
  · exact good_refl st
  · split
    · exact good_refl st
    · rename_i abs hres
      split
      · exact good_refl st
      · rename_i habs
        have hC : Good st (logFetch abs (fetchURLFromPage env abs (addParsed abs st))) :=
          good_logFetch_of
            (good_trans (good_addParsed abs st) (good_fetchURLFromPage env abs _)) habs
        split
        · exact good_trans hC (hr _ _ _)
        · exact hC

lemma good_engineF (env : Env) :
    ∀ (fuel : Nat) (css : List Nat) (d : Nat) (b : List Nat) (st : St),
      Good st (engineF env fuel css d b st) := by
  intro fuel
  induction fuel with
  | zero => intro css d b st; exact good_refl st
  | succ f ih =>
    intro css d b st
    simp only [engineF]
    split
    · exact good_refl st
    · split
      · exact good_resourcePass env _ _ st
      · exact good_trans (good_resourcePass env _ _ st)
          (good_foldl _ (good_stepImport env _ (fun icss abs st' => ih icss (d + 1) abs st') _) _ _)

lemma good_parseAndPreload (env : Env) (css : List Nat) (d : Nat)
    (b : List Nat) (st : St) : Good st (parseAndPreload env css d b st) :=
  good_engineF env (fuelFor d) css d b st

lemma good_handleImports (env : Env) (css : List Nat) (d : Nat)
    (b : List Nat) (st : St) : Good st (handleImports env css d b st) := by
  unfold handleImports
  split
  · exact good_refl st
  · exact good_foldl _
      (good_stepImport env _ (fun icss abs st' => good_parseAndPreload env icss (d + 1) abs st') _) _ _

lemma good_runOp (env : Env) (st : St) (op : Op) : Good st (runOp env st op) := by
  cases op with
  | probe url => exact good_fetchURLFromPage env url st
  | scan css d b => exact good_parseAndPreload env css d b st
  | link href =>
    simp only [runOp]
    split
    · exact good_refl st
    · split
      · exact good_refl st
      · rename_i hne habs
        have hC : Good st (logFetch href (addParsed href st)) :=
          good_logFetch_of (good_addParsed href st) habs
        split
        · exact good_trans hC (good_parseAndPreload env _ 0 href _)
        · exact hC

lemma good_runOps (env : Env) (ops : List Op) (st : St) :
    Good st (runOps env ops st) :=
  good_foldl _ (good_runOp env) ops st

lemma mem_preloaded_of_processResource (env : Env) (b : List Nat) (st : St)
    (u href a : List Nat)
    (hne : u.isEmpty = false) (hdata : (str "data:").isPrefixOf u = false)
    (hres : env.resolve u b = some href) (hg : guardFetch href = false)
    (hres2 : env.resolve href env.docBase = some a) :
    a ∈ (processResource env b st u).preloadedUrls := by
  unfold processResource
  simp only [hne, hdata, Bool.not_false, Bool.and_self, if_true]
  rw [hres]
  unfold fetchURLFromPage
  simp only [hg, Bool.false_eq_true, if_false]
  rw [hres2]
  by_cases hmem : a ∈ st.preloadedUrls
  · simp [hmem]
  · simp [hmem]

lemma mem_preloaded_resourcePass (env : Env) (ncss b : List Nat) (st : St)
    (u href a : List Nat)
    (hu : u ∈ scanPattern (str "url") ncss)
    (hne : u.isEmpty = false) (hdata : (str "data:").isPrefixOf u = false)
    (hres : env.resolve u b = some href) (hg : guardFetch href = false)
    (hres2 : env.resolve href env.docBase = some a) :
    a ∈ (resourcePass env ncss b st).preloadedUrls := by
  unfold resourcePass
  obtain ⟨s, t, hst⟩ := List.append_of_mem hu
  rw [hst, List.foldl_append, List.foldl_cons]
  have h1 : a ∈ (processResource env b
      (List.foldl (processResource env b) st s) u).preloadedUrls :=
    mem_preloaded_of_processResource env b _ u href a hne hdata hres hg hres2
  have h2 := (good_foldl _ (good_processResource env b) t _).1 a h1
  have h3 := (good_foldl _ (good_processResource env b)
    (scanPattern (str "image") ncss) _).1 a h2
  exact (good_foldl _
    (fun st' inner => good_trans (good_foldl _ (good_processInner env b) _ st')
      (good_foldl _ (good_processInner env b) _ _))
    (scanImageSet ncss) _).1 a h3

/-- C1: parseAndPreload triggers a load for every URL candidate that the
url() scan extracts from the decoded text, whatever surrounds it in the
CSS — conditional rules are never evaluated, the rule bodies are only
scanned textually.  In particular, for CSS with two mutually exclusive
conditional rules each holding a url() reference, both referenced URLs
receive a load trigger (see the witness on the two-branch
prefers-color-scheme stylesheet, whose light branch is hex-escaped). -/
theorem claim_C1 (env : Env) (css : List Nat) (d : Nat) (b : List Nat) (st : St)
    (u href a : List Nat)
    (hu : u ∈ scanPattern (str "url") (decodeCssEscapes css))
    (hne : u.isEmpty = false) (hdata : (str "data:").isPrefixOf u = false)
    (hres : env.resolve u (if b.isEmpty then env.docBase else b) = some href)
    (hg : guardFetch href = false)
    (hres2 : env.resolve href env.docBase = some a) :
    a ∈ (parseAndPreload env css d b st).preloadedUrls ∧
      (a ∉ st.preloadedUrls → a ∈ (parseAndPreload env css d b st).probes) := by
  have hcss : css.isEmpty = false := by
    cases css with
    | nil =>
      have h0 : scanPattern (str "url") (decodeCssEscapes []) = [] := rfl
      rw [h0] at hu
      exact absurd hu (List.not_mem_nil u)
    | cons c cs => rfl
  have hpre : a ∈ (parseAndPreload env css d b st).preloadedUrls := by
    have hfe : fuelFor d = (IMPORT_MAX_DEPTH - min d IMPORT_MAX_DEPTH) + 1 := by
      unfold fuelFor IMPORT_MAX_DEPTH
      omega
    simp only [parseAndPreload, hfe, engineF, hcss, Bool.false_eq_true, if_false]
    have hm : a ∈ (resourcePass env (decodeCssEscapes css)
        (if b.isEmpty = true then env.docBase else b) st).preloadedUrls :=
      mem_preloaded_resourcePass env _ _ st u href a hu hne hdata hres hg hres2
    split
    · exact hm
    · exact (good_foldl _
        (good_stepImport env _ (fun icss abs st' => good_engineF env _ icss (d + 1) abs st') _)
        _ _).1 a hm
  refine ⟨hpre, fun hnot => ?_⟩
  rcases (good_parseAndPreload env css d b st).2.2.2.2.1 a hpre with h | h
  · exact absurd h hnot
  · exact h

set_option maxRecDepth 200000 in
/-- Witness for C1: on the two-branch prefers-color-scheme stylesheet both
the (escaped) light URL and the dark URL receive a probe, with no
condition ever consulted. -/
theorem claim_C1_witness :
    lightUrl ∈ (parseAndPreload testEnv cssTwoBranch 0 (str "https://base.example/") initSt).probes ∧
    darkUrl ∈ (parseAndPreload testEnv cssTwoBranch 0 (str "https://base.example/") initSt).probes := by
  constructor
  · exact (claim_C1 testEnv cssTwoBranch 0 (str "https://base.example/") initSt
      lightUrl lightUrl lightUrl (by decide) (by decide) (by decide) (by decide)
      (by decide) (by decide)).2 (by decide)
  · exact (claim_C1 testEnv cssTwoBranch 0 (str "https://base.example/") initSt
      darkUrl darkUrl darkUrl (by decide) (by decide) (by decide) (by decide)
      (by decide) (by decide)).2 (by decide)

/-- C2: over any sequence of entry-point events from the initial document
state, the probe log never holds the same absolute URL twice; a direct
fetchURLFromPage call whose input resolves to an already-preloaded
absolute URL is a no-op, and the first such call records the URL in
preloadedUrls and creates exactly one probe. -/
theorem claim_C2 (env : Env) (ops : List Op) (u : List Nat) :
    (runOps env ops initSt).probes.Nodup ∧
    (∀ url st, guardFetch url = false → env.resolve url env.docBase = some u →
      u ∈ st.preloadedUrls → fetchURLFromPage env url st = st) ∧
    (∀ url st, guardFetch url = false → env.resolve url env.docBase = some u →
      u ∉ st.preloadedUrls → fetchURLFromPage env url st =
        { st with preloadedUrls := u :: st.preloadedUrls,
                  probes := st.probes ++ [u] }) := by
  refine ⟨?_, ?_, ?_⟩
  · have hinv : ProbeInv initSt := ⟨List.nodup_nil, by simp [initSt]⟩
    exact ((good_runOps env ops initSt).2.2.2.2.2 hinv).1
  · intro url st hg hres hmem
    unfold fetchURLFromPage
    simp only [hg, Bool.false_eq_true, if_false]
    rw [hres]
    simp [hmem]
  · intro url st hg hres hmem
    unfold fetchURLFromPage
    simp only [hg, Bool.false_eq_true, if_false]
    rw [hres]
    simp [hmem]

set_option maxRecDepth 20000 in
/-- Witness for C2 at concrete inputs: two probe requests for the same
absolute URL leave a duplicate-free probe log, the call on a fresh state
records the URL and the probe, and the repeat call is a no-op. -/
theorem claim_C2_witness :
    (runOps testEnv [Op.probe lightUrl, Op.probe lightUrl] initSt).probes.Nodup ∧
    fetchURLFromPage testEnv lightUrl
        { initSt with preloadedUrls := [lightUrl] } =
      { initSt with preloadedUrls := [lightUrl] } ∧
    fetchURLFromPage testEnv lightUrl initSt =
      { initSt with preloadedUrls := lightUrl :: initSt.preloadedUrls,
                    probes := initSt.probes ++ [lightUrl] } := by
  obtain ⟨h1, h2, h3⟩ := claim_C2 testEnv [Op.probe lightUrl, Op.probe lightUrl] lightUrl
  exact ⟨h1, h2 lightUrl _ (by decide) (by decide) (by decide),
    h3 lightUrl initSt (by decide) (by decide) (by decide)⟩

set_option maxRecDepth 800000 in
/-- C3: handleImports does nothing once the context depth reaches
IMPORT_MAX_DEPTH, each import recursion step raises the depth by exactly
one, so the synthetic ten-stylesheet import chain is processed for
exactly three levels (three stylesheet URLs marked and fetched, the rest
untouched), and the cyclic pair A imports B imports A is processed to
completion without unbounded work. -/
theorem claim_C3 :
    (∀ (env : Env) (css : List Nat) (d : Nat) (b : List Nat) (st : St),
      IMPORT_MAX_DEPTH ≤ d → handleImports env css d b st = st) ∧
    (runOps chainEnv [Op.scan (chainCss 1) 0 chainEnv.docBase] initSt).parsedCssUrls =
      [chainUrl 3, chainUrl 2, chainUrl 1] ∧
    (runOps chainEnv [Op.scan (chainCss 1) 0 chainEnv.docBase] initSt).fetches =
      [chainUrl 1, chainUrl 2, chainUrl 3] ∧
    (runOps cycleEnv
        [Op.scan (str "@import \"https://cyc.test/a.css\";") 0 cycleEnv.docBase]
        initSt).parsedCssUrls = [cycUrlB, cycUrlA] := by
  refine ⟨?_, by decide, by decide, by decide⟩
  intro env css d b st hd
  unfold handleImports
  rw [if_pos hd]

/-- Witness for C3's depth guard at a concrete call. -/
theorem claim_C3_witness :
    handleImports testEnv (chainCss 1) IMPORT_MAX_DEPTH
      (str "https://base.example/") initSt = initSt :=
  claim_C3.1 testEnv (chainCss 1) IMPORT_MAX_DEPTH
    (str "https://base.example/") initSt (le_refl _)

lemma decodeF_fuel :
    ∀ (f1 f2 : Nat) (s : List Nat), s.length ≤ f1 → s.length ≤ f2 →
      decodeF f1 s = decodeF f2 s := by
  intro f1
  induction f1 with
  | zero =>
    intro f2 s h1 _
    have hs : s = [] := List.eq_nil_of_length_eq_zero (Nat.le_zero.mp h1)
    subst hs
    cases f2 <;> rfl
  | succ n ih =>
    intro f2 s h1 h2
    cases s with
    | nil => cases f2 <;> rfl
    | cons c rest =>
      cases f2 with
      | zero => simp at h2
      | succ m =>
        have hrest : rest.length ≤ n := by simp at h1; omega
        have hrest2 : rest.length ≤ m := by simp at h2; omega
        simp only [decodeF]
        by_cases hc : c = 92
        · rw [if_pos hc, if_pos hc]
          by_cases hx0 : ((rest.take 6).takeWhile isHexDig).length = 0
          · rw [if_pos hx0, if_pos hx0, ih m rest hrest hrest2]
          · rw [if_neg hx0, if_neg hx0]
            have hr2 : ((rest.drop ((rest.take 6).takeWhile isHexDig).length).drop
                (wsHead (rest.drop ((rest.take 6).takeWhile isHexDig).length))).length ≤
                rest.length := by
              simp [List.length_drop]
            cases hps : parseIntHex ((rest.take 6).takeWhile isHexDig) with
            | none =>
              dsimp only
              rw [ih m _ (le_trans hr2 hrest) (le_trans hr2 hrest2)]
            | some code =>
              dsimp only
              by_cases hcode : code ≤ 1114111
              · rw [if_pos hcode, if_pos hcode,
                  ih m _ (le_trans hr2 hrest) (le_trans hr2 hrest2)]
              · rw [if_neg hcode, if_neg hcode,
                  ih m _ (le_trans hr2 hrest) (le_trans hr2 hrest2)]
        · rw [if_neg hc, if_neg hc, ih m rest hrest hrest2]

lemma decodeF_eq (fuel : Nat) (s : List Nat) (h : s.length ≤ fuel) :
    decodeF fuel s = decodeCssEscapes s :=
  decodeF_fuel fuel s.length s h (le_refl _)

lemma takeWhile_take_nil (p : Nat → Bool) (rest : List Nat) (k : Nat)
    (h : rest.takeWhile p = []) : (rest.take k).takeWhile p = [] := by
  cases rest with
  | nil => simp
  | cons d r =>
    have hd : p d = false := by
      by_contra hd
      simp only [List.takeWhile_cons] at h
      rw [Bool.not_eq_false] at hd
      rw [hd] at h
      simp at h
    cases k with
    | zero => simp
    | succ j => simp [List.takeWhile_cons, hd]

lemma hex_munch (hx rest : List Nat) (hall : hx.all isHexDig = true)
    (hlen : hx.length ≤ 6)
    (hmax : hx.length = 6 ∨ rest.takeWhile isHexDig = []) :
    ((hx ++ rest).take 6).takeWhile isHexDig = hx := by
  have hself : hx.takeWhile isHexDig = hx := by
    rw [List.takeWhile_eq_self_iff]
    intro x hxm
    rw [List.all_eq_true] at hall
    exact hall x hxm
  rcases hmax with h6 | hnx
  · have ht : (hx ++ rest).take 6 = hx := by
      rw [← h6]
      exact List.take_left hx rest
    rw [ht, hself]
  · rw [List.take_append_eq_append_take, List.take_of_length_le hlen,
      List.takeWhile_append_of_pos
        (fun x hxm => by rw [List.all_eq_true] at hall; exact hall x hxm),
      takeWhile_take_nil isHexDig rest _ hnx, List.append_nil]

/-- C4: the escape-decoding contract.  A backslash followed by a maximal
run of 1 to 6 hex digits (and an optional single whitespace character,
consumed by the match) is replaced by the code point when it is a valid
one (at most U+10FFFF); a sequence above U+10FFFF is kept verbatim in
escaped form, including the consumed whitespace; the empty string is
returned unchanged; and a backslash not followed by a hex digit passes
through literally. -/
theorem claim_C4 :
    decodeCssEscapes [] = [] ∧
    (∀ hx rest, hx ≠ [] → hx.all isHexDig = true → hx.length ≤ 6 →
      (hx.length = 6 ∨ rest.takeWhile isHexDig = []) →
      hexVal hx ≤ 1114111 →
      decodeCssEscapes (92 :: hx ++ rest) =
        hexVal hx :: decodeCssEscapes (rest.drop (wsHead rest))) ∧
    (∀ hx rest, hx ≠ [] → hx.all isHexDig = true → hx.length ≤ 6 →
      (hx.length = 6 ∨ rest.takeWhile isHexDig = []) →
      1114111 < hexVal hx →
      decodeCssEscapes (92 :: hx ++ rest) =
        92 :: hx ++ rest.take (wsHead rest) ++
          decodeCssEscapes (rest.drop (wsHead rest))) ∧
    (∀ rest, rest.takeWhile isHexDig = [] →
      decodeCssEscapes (92 :: rest) = 92 :: decodeCssEscapes rest) := by
  have key : ∀ hx rest, hx ≠ [] → hx.all isHexDig = true → hx.length ≤ 6 →
      (hx.length = 6 ∨ rest.takeWhile isHexDig = []) →
      decodeCssEscapes (92 :: hx ++ rest) =
        (if hexVal hx ≤ 1114111 then
          hexVal hx :: decodeCssEscapes (rest.drop (wsHead rest))
        else 92 :: hx ++ rest.take (wsHead rest) ++
          decodeCssEscapes (rest.drop (wsHead rest))) := by
    intro hx rest hne hall hlen hmax
    have hdl : (hx ++ rest).drop hx.length = rest := List.drop_left hx rest
    have hlen0 : ¬ hx.length = 0 := fun h => hne (List.eq_nil_of_length_eq_zero h)
    have hdrople : (rest.drop (wsHead rest)).length ≤ (hx ++ rest).length := by
      simp [List.length_drop, List.length_append]
      omega
    show decodeF ((hx ++ rest).length + 1) (92 :: hx ++ rest) = _
    simp only [decodeF]
    simp only [if_true, List.append_eq]
    rw [hex_munch hx rest hall hlen hmax]
    rw [if_neg hlen0, hdl]
    have hps : parseIntHex hx = some (hexVal hx) := by
      unfold parseIntHex
      rw [if_pos ⟨hne, hall⟩]
    rw [hps]
    dsimp only
    by_cases hcode : hexVal hx ≤ 1114111
    · rw [if_pos hcode, if_pos hcode, decodeF_eq _ _ hdrople]
    · rw [if_neg hcode, if_neg hcode, decodeF_eq _ _ hdrople]
  refine ⟨rfl, ?_, ?_, ?_⟩
  · intro hx rest hne hall hlen hmax hcode
    rw [key hx rest hne hall hlen hmax, if_pos hcode]
  · intro hx rest hne hall hlen hmax hcode
    rw [key hx rest hne hall hlen hmax, if_neg (by omega)]
  · intro rest hnx
    show decodeF (rest.length + 1) (92 :: rest) = _
    simp only [decodeF]
    simp only [if_true]
    rw [takeWhile_take_nil isHexDig rest 6 hnx]
    simp only [List.length_nil, eq_self_iff_true, if_true]
    rw [decodeF_eq rest.length rest (le_refl _)]

/-- Witness for C4 at concrete inputs: a valid escape with trailing
whitespace, an out-of-range escape kept verbatim, and a lone backslash
followed by a non-hex character. -/
theorem claim_C4_witness :
    decodeCssEscapes [] = [] ∧
    decodeCssEscapes (92 :: str "72" ++ str " l(x") =
      hexVal (str "72") :: decodeCssEscapes ((str " l(x").drop (wsHead (str " l(x"))) ∧
    decodeCssEscapes (92 :: str "110000" ++ str " a") =
      92 :: str "110000" ++ (str " a").take (wsHead (str " a")) ++
        decodeCssEscapes ((str " a").drop (wsHead (str " a"))) ∧
    decodeCssEscapes (92 :: str "z1") = 92 :: decodeCssEscapes (str "z1") := by
  obtain ⟨h1, h2, h3, h4⟩ := claim_C4
  exact ⟨h1,
    h2 (str "72") (str " l(x") (by decide) (by decide) (by decide)
      (Or.inr (by decide)) (by decide),
    h3 (str "110000") (str " a") (by decide) (by decide) (by decide)
      (Or.inl (by decide)) (by decide),
    h4 (str "z1") (by decide)⟩

lemma decodeF_nil (fuel : Nat) : decodeF fuel [] = [] := by
  cases fuel <;> rfl

lemma decodeF_no_escape :
    ∀ (fuel : Nat) (s : List Nat), hasEscape s = false → decodeF fuel s = s := by
  intro fuel
  induction fuel with
  | zero => intro s _; rfl
  | succ n ih =>
    intro s h
    cases s with
    | nil => rfl
    | cons c rest =>
      have hrest : hasEscape rest = false := by
        cases rest with
        | nil => rfl
        | cons d r =>
          simp only [hasEscape, Bool.or_eq_false_iff] at h
          exact h.2
      simp only [decodeF]
      by_cases hc : c = 92
      · subst hc
        cases rest with
        | nil =>
          simp only [List.take_nil, List.takeWhile_nil, List.length_nil,
            eq_self_iff_true, if_true, decodeF_nil]
        | cons d r =>
          have hd : isHexDig d = false := by
            simp only [hasEscape, Bool.or_eq_false_iff, Bool.and_eq_false_iff] at h
            rcases h.1 with h1 | h1
            · simp at h1
            · exact h1
          have hx0 : ((List.take 6 (d :: r)).takeWhile isHexDig).length = 0 := by
            simp [List.take_succ_cons, List.takeWhile_cons, hd]
          rw [if_pos rfl]
          rw [if_pos hx0]
          rw [ih (d :: r) hrest]
      · rw [if_neg hc, ih rest hrest]

lemma decode_no_escape (s : List Nat) (h : hasEscape s = false) :
    decodeCssEscapes s = s :=
  decodeF_no_escape s.length s h

lemma no_backslash_no_escape (s : List Nat) (h : 92 ∉ s) : hasEscape s = false := by
  induction s with
  | nil => rfl
  | cons c rest ih =>
    have hc : c ≠ 92 := fun hcc => h (hcc ▸ List.mem_cons_self c rest)
    have hrest : 92 ∉ rest := fun hm => h (List.mem_cons_of_mem c hm)
    cases rest with
    | nil => rfl
    | cons d r =>
      simp only [hasEscape, Bool.or_eq_false_iff, Bool.and_eq_false_iff]
      exact ⟨Or.inl (by simpa using hc), ih hrest⟩

/-- Counterexample to C5 as stated: decoding is not idempotent.  On the
input backslash, 5, C, space, 3, 1 the first pass decodes the escaped
backslash and leaves 3 1 behind it, manufacturing the new escape
sequence backslash 3 1, which a second pass decodes further. -/
theorem claim_C5_counterexample :
    decodeCssEscapes (decodeCssEscapes (str "\\5C 31")) ≠
      decodeCssEscapes (str "\\5C 31") := by decide

/-- C5 amended: decoding is a no-op on strings with no escape sequence
(in particular on backslash-free strings), hence idempotent on every
string whose decoded form contains no backslash — but not idempotent in
general, because decoding an escaped backslash can create a fresh escape
sequence (see the counterexample).  The two obfuscated url spellings
still decode to text containing url("x"). -/
theorem claim_C5_amended :
    (∀ s, 92 ∉ s → decodeCssEscapes s = s) ∧
    (∀ s, hasEscape s = false → decodeCssEscapes s = s) ∧
    (∀ s, 92 ∉ decodeCssEscapes s →
      decodeCssEscapes (decodeCssEscapes s) = decodeCssEscapes s) ∧
    (str "url(\"x\")") <:+: decodeCssEscapes (str "u\\72l(\"x\")") ∧
    (str "url(\"x\")") <:+: decodeCssEscapes (str "\\75rl(\"x\")") := by
  refine ⟨?_, ?_, ?_, by decide, by decide⟩
  · intro s h
    exact decode_no_escape s (no_backslash_no_escape s h)
  · intro s h
    exact decode_no_escape s h
  · intro s h
    exact decode_no_escape _ (no_backslash_no_escape _ h)

/-- Witness for the amended C5 at concrete inputs. -/
theorem claim_C5_witness :
    decodeCssEscapes (str "abc") = str "abc" ∧
    decodeCssEscapes (str "a\\zb") = str "a\\zb" ∧
    decodeCssEscapes (decodeCssEscapes (str "u\\72l(\"x\")")) =
      decodeCssEscapes (str "u\\72l(\"x\")") :=
  ⟨claim_C5_amended.1 (str "abc") (by decide),
    claim_C5_amended.2.1 (str "a\\zb") (by decide),
    claim_C5_amended.2.2.1 (str "u\\72l(\"x\")") (by decide)⟩

set_option maxRecDepth 100000 in
/-- Counterexample to C6 as stated: a fragment-only url() candidate does
generate a load trigger.  parseAndPreload resolves the raw candidate
against the base URL before calling fetchURLFromPage, so the # guard
only ever sees the absolute resolved URL and a probe is created for the
base URL carrying the fragment. -/
theorem claim_C6_counterexample :
    (parseAndPreload testEnv cssFragOnly 0 testEnv.docBase initSt).probes =
      [str "https://base.example/#mark"] := by decide

/-- C6 amended: a candidate handed directly to fetchURLFromPage that is
empty or starts with data:, # or blob: never creates a probe; a url() or
image() candidate in parseAndPreload that is empty or starts with data:
is dropped before resolution; and a candidate whose URL construction
fails is silently dropped — each such drop leaves the state unchanged, so
processing of the remaining candidates continues.  However a candidate
that starts with # and is scanned by parseAndPreload is resolved against
the base URL first, so it does trigger a load of the resolved URL (see
the counterexample). -/
theorem claim_C6_amended :
    (∀ env st url, guardFetch url = true → fetchURLFromPage env url st = st) ∧
    (∀ env (b : List Nat) st u,
      u.isEmpty = true ∨ (str "data:").isPrefixOf u = true →
      processResource env b st u = st) ∧
    (∀ env (b : List Nat) st u, env.resolve u b = none →
      processResource env b st u = st) ∧
    (∀ env (b : List Nat) st u, env.resolve u b = none →
      processInner env b st u = st) := by
  refine ⟨?_, ?_, ?_, ?_⟩
  · intro env st url h
    unfold fetchURLFromPage
    rw [if_pos h]
  · intro env b st u h
    unfold processResource
    rcases h with h | h
    · simp [h]
    · simp [h]
  · intro env b st u h
    unfold processResource
    split
    · rw [h]
    · rfl
  · intro env b st u h
    unfold processInner
    rw [h]

set_option maxRecDepth 20000 in
/-- Witness for the amended C6 at concrete inputs. -/
theorem claim_C6_witness :
    fetchURLFromPage testEnv (str "data:image/png;base64,AA") initSt = initSt ∧
    fetchURLFromPage testEnv (str "blob:https://x.test/y") initSt = initSt ∧
    fetchURLFromPage testEnv (str "#frag") initSt = initSt ∧
    fetchURLFromPage testEnv [] initSt = initSt ∧
    processResource testEnv (str "https://base.example/") initSt
      (str "data:text/css,\x7b\x7d") = initSt ∧
    processResource testEnv (str "https://base.example/") initSt
      (str "mailto:x") = initSt :=
  ⟨claim_C6_amended.1 testEnv initSt _ (by decide),
    claim_C6_amended.1 testEnv initSt _ (by decide),
    claim_C6_amended.1 testEnv initSt _ (by decide),
    claim_C6_amended.1 testEnv initSt _ (by decide),
    claim_C6_amended.2.1 testEnv _ initSt _ (Or.inr (by decide)),
    claim_C6_amended.2.2.1 testEnv _ initSt _ (by decide)⟩

/-- C7: the @import scan accepts both the functional url(...) form and the
bare-string form with trailing media tokens; below the depth bound,
handleImports runs the import loop over the scanned candidates of the
decoded text with the context base; a candidate whose resolved absolute
URL is already in parsedCssUrls is skipped entirely; and a fresh
candidate is processed by first marking the URL seen, then probing that
very URL, then requesting its text and, only when the fetch
succeeds, recursing with depth + 1 and the import's own absolute URL as
base. -/
theorem claim_C7 :
    scanImports (str "@import url(\"https://a.test/x.css\");") =
      [str "https://a.test/x.css"] ∧
    scanImports (str "@import \"theme.css\" screen and (min-width: 400px);") =
      [str "theme.css"] ∧
    (∀ env css d (b : List Nat) st, d < IMPORT_MAX_DEPTH →
      handleImports env css d b st =
        (scanImports (decodeCssEscapes css)).foldl
          (stepImport env (fun icss abs st' => parseAndPreload env icss (d + 1) abs st')
            (if b.isEmpty then env.docBase else b)) st) ∧
    (∀ env recur (b : List Nat) st cand abs, cand.isEmpty = false →
      env.resolve (trim cand) b = some abs → abs ∈ st.parsedCssUrls →
      stepImport env recur b st cand = st) ∧
    (∀ env recur (b : List Nat) st cand abs, cand.isEmpty = false →
      env.resolve (trim cand) b = some abs → abs ∉ st.parsedCssUrls →
      stepImport env recur b st cand =
        match env.fetchText abs with
        | some icss =>
          recur icss abs (logFetch abs (fetchURLFromPage env abs (addParsed abs st)))
        | none => logFetch abs (fetchURLFromPage env abs (addParsed abs st))) := by
  refine ⟨by decide, by decide, ?_, ?_, ?_⟩
  · intro env css d b st hd
    unfold handleImports
    rw [if_neg (by omega)]
  · intro env recur b st cand abs hne hres hmem
    unfold stepImport
    rw [if_neg (by simp [hne]), hres]
    dsimp only
    rw [if_pos hmem]
  · intro env recur b st cand abs hne hres hmem
    unfold stepImport
    rw [if_neg (by simp [hne]), hres]
    dsimp only
    rw [if_neg hmem]

set_option maxRecDepth 200000 in
/-- Witness for C7: the import loop equation at depth 0, the skip of an
already-parsed candidate, and the full fresh-candidate step on the
cyclic-import network. -/
theorem claim_C7_witness :
    handleImports cycleEnv (str "@import \"https://cyc.test/b.css\";") 0
        cycUrlA initSt =
      (scanImports (decodeCssEscapes (str "@import \"https://cyc.test/b.css\";"))).foldl
        (stepImport cycleEnv
          (fun icss abs st' => parseAndPreload cycleEnv icss 1 abs st')
          cycUrlA) initSt ∧
    stepImport cycleEnv
        (fun icss abs st' => parseAndPreload cycleEnv icss 1 abs st')
        cycUrlA { initSt with parsedCssUrls := [cycUrlB] }
        (str "https://cyc.test/b.css") =
      { initSt with parsedCssUrls := [cycUrlB] } ∧
    stepImport cycleEnv
        (fun icss abs st' => parseAndPreload cycleEnv icss 1 abs st')
        cycUrlA initSt (str "https://cyc.test/b.css") =
      match cycleEnv.fetchText cycUrlB with
      | some icss =>
        parseAndPreload cycleEnv icss 1 cycUrlB
          (logFetch cycUrlB (fetchURLFromPage cycleEnv cycUrlB (addParsed cycUrlB initSt)))
      | none => logFetch cycUrlB (fetchURLFromPage cycleEnv cycUrlB (addParsed cycUrlB initSt)) := by
  refine ⟨?_, ?_, ?_⟩
  · have h := claim_C7.2.2.1 cycleEnv (str "@import \"https://cyc.test/b.css\";") 0
      cycUrlA initSt (by decide)
    rw [h]
    rfl
  · exact claim_C7.2.2.2.1 cycleEnv _ cycUrlA _ _ cycUrlB (by decide) (by decide)
      (by decide)
  · exact claim_C7.2.2.2.2 cycleEnv _ cycUrlA initSt _ cycUrlB (by decide) (by decide)
      (by decide)

/-- C8: fetchCSSContent classifies by origin — a URL whose origin differs
from the page origin is delegated to the service-worker proxy, a
same-origin URL is fetched directly and its body returned on an ok
status — and every failure path (URL construction throw, non-ok status,
fetch exception, proxy lastError, missing proxy response, unsuccessful
proxy response) yields null rather than throwing or propagating. -/
theorem claim_C8 (net : Net) (url : List Nat) :
    (∀ origin, net.parseOrigin url = some origin → origin ≠ net.locOrigin →
      fetchCSSContent net url = fetchCSSViaBackground net url) ∧
    (∀ origin body, net.parseOrigin url = some origin → origin = net.locOrigin →
      net.directFetch url = .ok (true, body) →
      fetchCSSContent net url = some body) ∧
    (net.parseOrigin url = none → fetchCSSContent net url = none) ∧
    (∀ origin body, net.parseOrigin url = some origin → origin = net.locOrigin →
      net.directFetch url = .ok (false, body) →
      fetchCSSContent net url = none) ∧
    (∀ origin e, net.parseOrigin url = some origin → origin = net.locOrigin →
      net.directFetch url = .error e → fetchCSSContent net url = none) ∧
    (net.bg url = .lastErr → fetchCSSViaBackground net url = none) ∧
    (net.bg url = .noResp → fetchCSSViaBackground net url = none) ∧
    (∀ css, net.bg url = .resp false css → fetchCSSViaBackground net url = none) ∧
    (∀ css, net.bg url = .resp true css → fetchCSSViaBackground net url = css) := by
  refine ⟨?_, ?_, ?_, ?_, ?_, ?_, ?_, ?_, ?_⟩
  · intro origin h1 h2
    unfold fetchCSSContent
    rw [h1]
    dsimp only
    rw [if_pos h2]
  · intro origin body h1 h2 h3
    unfold fetchCSSContent
    rw [h1]
    dsimp only
    rw [if_neg (by simp [h2]), h3]
    rfl
  · intro h1
    unfold fetchCSSContent
    rw [h1]
  · intro origin body h1 h2 h3
    unfold fetchCSSContent
    rw [h1]
    dsimp only
    rw [if_neg (by simp [h2]), h3]
    rfl
  · intro origin e h1 h2 h3
    unfold fetchCSSContent
    rw [h1]
    dsimp only
    rw [if_neg (by simp [h2]), h3]
  · intro h
    unfold fetchCSSViaBackground
    rw [h]
  · intro h
    unfold fetchCSSViaBackground
    rw [h]
  · intro css h
    unfold fetchCSSViaBackground
    rw [h]
  · intro css h
    unfold fetchCSSViaBackground
    rw [h]

/-- Witness for C8 on the concrete fetch world. -/
theorem claim_C8_witness :
    fetchCSSContent testNet (str "https://other.example/b.css") =
      fetchCSSViaBackground testNet (str "https://other.example/b.css") ∧
    fetchCSSContent testNet (str "https://same.example/a.css") =
      some (str "body\x7b\x7d") ∧
    fetchCSSContent testNet (str "mailto:x") = none ∧
    fetchCSSViaBackground testNet (str "https://other.example/b.css") =
      some (str "p\x7b\x7d") :=
  ⟨(claim_C8 testNet _).1 (str "https://other.example") (by decide) (by decide),
    (claim_C8 testNet _).2.1 (str "https://same.example") (str "body\x7b\x7d")
      (by decide) (by decide) (by rfl),
    (claim_C8 testNet _).2.2.1 (by decide),
    (claim_C8 testNet _).2.2.2.2.2.2.2.2 (some (str "p\x7b\x7d")) (by decide)⟩

/-- C9: once a stylesheet URL is in parsedCssUrls it stays there through
every later entry-point event (nothing ever removes it — in particular a
failed fetch does not unmark it, since the URL is inserted before the
fetch is attempted, see C7's step equation); no later event ever fetches
that URL again; an @import candidate resolving to it is skipped
entirely; and a link element with that href is skipped entirely. -/
theorem claim_C9 (env : Env) (ops : List Op) (st : St) (abs : List Nat)
    (h : abs ∈ st.parsedCssUrls) :
    abs ∈ (runOps env ops st).parsedCssUrls ∧
    (∀ u ∈ (runOps env ops st).fetches, u ∈ st.fetches ∨ u ≠ abs) ∧
    (∀ env2 recur (b : List Nat) st2 cand, abs ∈ st2.parsedCssUrls →
      env2.resolve (trim cand) b = some abs →
      stepImport env2 recur b st2 cand = st2) ∧
    (∀ st2 : St, abs ∈ st2.parsedCssUrls → runOp env st2 (Op.link abs) = st2) := by
  refine ⟨(good_runOps env ops st).2.1 abs h, ?_, ?_, ?_⟩
  · intro u hu
    obtain ⟨d, hd, hdp⟩ := (good_runOps env ops st).2.2.2.1
    rw [hd] at hu
    rcases List.mem_append.mp hu with hu1 | hu2
    · exact Or.inl hu1
    · exact Or.inr (fun he => hdp u hu2 (he ▸ h))
  · intro env2 recur b st2 cand hmem hres
    unfold stepImport
    split
    · rfl
    · rw [hres]
      dsimp only
      rw [if_pos hmem]
  · intro st2 hmem
    simp only [runOp]
    by_cases he : abs.isEmpty = true
    · rw [if_pos he]
    · rw [if_neg he, if_pos hmem]

set_option maxRecDepth 200000 in
/-- Witness for C9 on the cyclic network: with B already marked, a scan
whose import resolves to B leaves B marked, fetches nothing new equal to
B, the import step for B is a no-op, and a link event for B is a no-op. -/
theorem claim_C9_witness :
    cycUrlB ∈ (runOps cycleEnv
        [Op.scan (str "@import \"https://cyc.test/b.css\";") 0 cycleEnv.docBase]
        { initSt with parsedCssUrls := [cycUrlB] }).parsedCssUrls ∧
    (∀ u ∈ (runOps cycleEnv
        [Op.scan (str "@import \"https://cyc.test/b.css\";") 0 cycleEnv.docBase]
        { initSt with parsedCssUrls := [cycUrlB] }).fetches,
      u ∈ ({ initSt with parsedCssUrls := [cycUrlB] } : St).fetches ∨ u ≠ cycUrlB) ∧
    stepImport cycleEnv
        (fun icss abs st' => parseAndPreload cycleEnv icss 1 abs st')
        cycleEnv.docBase { initSt with parsedCssUrls := [cycUrlB] }
        (str "https://cyc.test/b.css") =
      { initSt with parsedCssUrls := [cycUrlB] } ∧
    runOp cycleEnv { initSt with parsedCssUrls := [cycUrlB] } (Op.link cycUrlB) =
      { initSt with parsedCssUrls := [cycUrlB] } := by
  obtain ⟨h1, h2, h3, h4⟩ := claim_C9 cycleEnv
    [Op.scan (str "@import \"https://cyc.test/b.css\";") 0 cycleEnv.docBase]
    { initSt with parsedCssUrls := [cycUrlB] } cycUrlB (by decide)
  exact ⟨h1, h2,
    h3 cycleEnv _ cycleEnv.docBase _ (str "https://cyc.test/b.css")
      (by decide) (by decide),
    h4 _ (by decide)⟩

lemma decodeInstrF_eq_pair :
    ∀ (fuel : Nat) (s : List Nat), decodeInstrF fuel s = (decodeF fuel s, false) := by
  intro fuel
  induction fuel with
  | zero => intro s; rfl
  | succ n ih =>
    intro s
    cases s with
    | nil => rfl
    | cons c rest =>
      simp only [decodeInstrF, decodeF]
      by_cases hc : c = 92
      · rw [if_pos hc, if_pos hc]
        by_cases hx0 : ((rest.take 6).takeWhile isHexDig).length = 0
        · rw [if_pos hx0, if_pos hx0, ih rest]
        · rw [if_neg hx0, if_neg hx0]
          have hall : ((rest.take 6).takeWhile isHexDig).all isHexDig = true :=
            List.all_takeWhile
          have hne : (rest.take 6).takeWhile isHexDig ≠ [] := fun hq => hx0 (by
            rw [hq]
            rfl)
          have hps : parseIntHex ((rest.take 6).takeWhile isHexDig) =
              some (hexVal ((rest.take 6).takeWhile isHexDig)) := by
            unfold parseIntHex
            rw [if_pos ⟨hne, hall⟩]
          rw [hps]
          dsimp only
          by_cases hcode : hexVal ((rest.take 6).takeWhile isHexDig) ≤ 1114111
          · rw [if_pos hcode, if_pos hcode, ih]
          · rw [if_neg hcode, if_neg hcode, ih]
      · rw [if_neg hc, if_neg hc, ih rest]

/-- C10: decodeCssEscapes is total and cannot throw.  Every matched
1-to-6-hex-digit capture parses to a number, so the instrumented decoder
never reports taking the non-finite guard branch, and it computes
exactly what decodeCssEscapes computes — including the caught
String.fromCodePoint failure above U+10FFFF, which returns the original
escape text (see C4). -/
theorem claim_C10 (s : List Nat) :
    (decodeCssEscapesInstr s).2 = false ∧
    (decodeCssEscapesInstr s).1 = decodeCssEscapes s := by
  unfold decodeCssEscapesInstr decodeCssEscapes
  rw [decodeInstrF_eq_pair s.length s]
  exact ⟨rfl, rfl⟩
